import Mathlib

/-!
Shallow embedding of the booking-intent extraction engine of
`app/services/booking_parser.py` (class `BookingParser`), together with
theorems settling the specification claims about it.

Conventions of the embedding:
* Python `Optional[str]` becomes `Option String`; Python truthiness of such a
  value (`if not x`) becomes `truthy`.
* Python floats in this module are finite decimal constants; they are carried
  as exact rationals (`Rat`).  The one float computation (the intent score,
  a sum of `1` and `0.5` increments) is tracked as twice its value in `Nat`,
  which is exact.
* The external capabilities (spaCy model, `dateutil` parser, current date,
  LLM completion) are parameters: see `Env` and the `Option String` argument
  of `process_booking_with_llm`.
* The regular expressions of the source are implemented character by
  character with the same alternation order and backtracking behaviour as
  the Python `re` module on the patterns in question.
-/

/-- Python whitespace class `\s` (ASCII part, which the source texts use). -/
def isSpacePy (c : Char) : Bool :=
  c = ' ' || c = '\t' || c = '\n' || c = '\x0b' || c = '\x0c' || c = '\r'

/-- Python word-character class `\w` (ASCII part), used for `\b` boundaries. -/
def isWordB (c : Char) : Bool := c.isAlphanum || c = '_'

/-- Regex word boundary `\b`: the previous character (if any) and the next
character (if any) disagree on being word characters. -/
def atBoundary (prev : Option Char) (cs : List Char) : Bool :=
  (match prev with | some p => isWordB p | none => false)
    != (match cs with | c :: _ => isWordB c | [] => false)

def isPrefixCharsCI (p : List Char) (cs : List Char) : Option (List Char) :=
  match p, cs with
  | [], rest => some rest
  | _ :: _, [] => none
  | a :: as, b :: bs => if b.toLower = a.toLower then isPrefixCharsCI as bs else none

def isPrefixCharsExact (p : List Char) (cs : List Char) : Option (List Char) :=
  match p, cs with
  | [], rest => some rest
  | _ :: _, [] => none
  | a :: as, b :: bs => if b = a then isPrefixCharsExact as bs else none

def pyInAux (needle : List Char) : List Char → Bool
  | [] => (isPrefixCharsExact needle []).isSome
  | c :: rest => (isPrefixCharsExact needle (c :: rest)).isSome || pyInAux needle rest

/-- Python substring containment `needle in hay`. -/
def pyIn (needle hay : String) : Bool := pyInAux needle.data hay.data

/-- Python `str.strip()` (whitespace from both ends). -/
def pyStrip (s : String) : String :=
  String.mk (((s.data.dropWhile isSpacePy).reverse.dropWhile isSpacePy).reverse)

def pySplitWsAux : Nat → List Char → List String
  | 0, _ => []
  | _ + 1, [] => []
  | fuel + 1, cs =>
      let cs1 := cs.dropWhile isSpacePy
      match cs1 with
      | [] => []
      | _ :: _ =>
          let w := cs1.takeWhile (fun c => !isSpacePy c)
          String.mk w :: pySplitWsAux fuel (cs1.drop w.length)

/-- Python `str.split()` with no argument: split on whitespace runs. -/
def pySplitWs (s : String) : List String := pySplitWsAux (s.data.length + 1) s.data

/-- Python `str.lower()` (character-wise, so that the kernel can evaluate
it). -/
def strToLower (s : String) : String := String.mk (s.data.map Char.toLower)

def splitNlAux : Nat → List Char → List Char → List String
  | 0, acc, _ => [String.mk acc.reverse]
  | _ + 1, acc, [] => [String.mk acc.reverse]
  | fuel + 1, acc, c :: rest =>
      if c = '\n' then String.mk acc.reverse :: splitNlAux fuel [] rest
      else splitNlAux fuel (c :: acc) rest

/-- Python `str.split("\n")`. -/
def splitNl (s : String) : List String := splitNlAux (s.data.length + 1) [] s.data

/-- Python format `f"{n:02d}"`. -/
def pad2 (n : Nat) : String := if n < 10 then "0" ++ toString n else toString n

/-- Python format `f"{n:04d}"` (as used by `strftime` for the year). -/
def pad4 (n : Nat) : String :=
  if n < 10 then "000" ++ toString n
  else if n < 100 then "00" ++ toString n
  else if n < 1000 then "0" ++ toString n
  else toString n

/-- Calendar date, standing for the Python `datetime.date` values the engine
compares and formats. -/
structure Date where
  year : Nat
  month : Nat
  day : Nat
deriving DecidableEq, Repr

def isLeap (y : Nat) : Bool := (y % 4 = 0 && y % 100 != 0) || y % 400 = 0

def daysInMonth (y m : Nat) : Nat :=
  if m = 2 then (if isLeap y then 29 else 28)
  else if m = 4 || m = 6 || m = 9 || m = 11 then 30
  else 31

def Date.le (a b : Date) : Bool :=
  decide (a.year < b.year ∨ (a.year = b.year ∧
    (a.month < b.month ∨ (a.month = b.month ∧ a.day ≤ b.day))))

def Date.lt (a b : Date) : Bool :=
  decide (a.year < b.year ∨ (a.year = b.year ∧
    (a.month < b.month ∨ (a.month = b.month ∧ a.day < b.day))))

/-- The Python expression `d - timedelta(days=1)`. -/
def Date.predDay (d : Date) : Date :=
  if d.day > 1 then ⟨d.year, d.month, d.day - 1⟩
  else if d.month > 1 then ⟨d.year, d.month - 1, daysInMonth d.year (d.month - 1)⟩
  else ⟨d.year - 1, 12, 31⟩

/-- Python `date.strftime("%Y-%m-%d")`. -/
def Date.fmt (d : Date) : String := pad4 d.year ++ "-" ++ pad2 d.month ++ "-" ++ pad2 d.day

def digitVal (c : Char) : Nat := c.toNat - 48

/-- Candidates for the `%H` directive of `strptime`, in the alternation order
of the CPython `_strptime` regex `2[0-3]|[0-1]\d|\d`. -/
def hourAlts : List Char → List (Nat × List Char)
  | a :: b :: r =>
      (if a = '2' ∧ '0' ≤ b ∧ b ≤ '3' then [(20 + digitVal b, r)] else [])
      ++ (if (a = '0' ∨ a = '1') ∧ b.isDigit then [(10 * digitVal a + digitVal b, r)] else [])
      ++ (if a.isDigit then [(digitVal a, b :: r)] else [])
  | [a] => if a.isDigit then [(digitVal a, [])] else []
  | [] => []

/-- Candidates for the `%M` directive: `[0-5]\d|\d`. -/
def minuteAlts : List Char → List (Nat × List Char)
  | a :: b :: r =>
      (if '0' ≤ a ∧ a ≤ '5' ∧ b.isDigit then [(10 * digitVal a + digitVal b, r)] else [])
      ++ (if a.isDigit then [(digitVal a, b :: r)] else [])
  | [a] => if a.isDigit then [(digitVal a, [])] else []
  | [] => []

/-- Python `datetime.strptime(s, "%H:%M")`, returning the hour and minute, or
`none` on `ValueError`.  The whole string must be consumed. -/
def strptimeHM (cs : List Char) : Option (Nat × Nat) :=
  (hourAlts cs).findSome? fun hr =>
    match hr.2 with
    | ':' :: rest2 =>
        (minuteAlts rest2).findSome? fun mr =>
          if mr.2 = [] then some (hr.1, mr.1) else none
    | _ => none

/-- Candidates for `%m`: `1[0-2]|0[1-9]|[1-9]`. -/
def monthAlts : List Char → List (Nat × List Char)
  | a :: b :: r =>
      (if a = '1' ∧ '0' ≤ b ∧ b ≤ '2' then [(10 + digitVal b, r)] else [])
      ++ (if a = '0' ∧ '1' ≤ b ∧ b ≤ '9' then [(digitVal b, r)] else [])
      ++ (if '1' ≤ a ∧ a ≤ '9' then [(digitVal a, b :: r)] else [])
  | [a] => if '1' ≤ a ∧ a ≤ '9' then [(digitVal a, [])] else []
  | [] => []

/-- Candidates for `%d`: `3[01]|[12]\d|0[1-9]|[1-9]`. -/
def dayAlts : List Char → List (Nat × List Char)
  | a :: b :: r =>
      (if a = '3' ∧ ('0' ≤ b ∧ b ≤ '1') then [(30 + digitVal b, r)] else [])
      ++ (if (a = '1' ∨ a = '2') ∧ b.isDigit then [(10 * digitVal a + digitVal b, r)] else [])
      ++ (if a = '0' ∧ '1' ≤ b ∧ b ≤ '9' then [(digitVal b, r)] else [])
      ++ (if '1' ≤ a ∧ a ≤ '9' then [(digitVal a, b :: r)] else [])
  | [a] => if '1' ≤ a ∧ a ≤ '9' then [(digitVal a, [])] else []
  | [] => []

/-- Python `datetime.strptime(s, "%Y-%m-%d").date()`, `none` on `ValueError`.
`%Y` is exactly four digits; the resulting triple must be a valid
`datetime.date` (year at least 1, day within the month). -/
def strptimeYmd (cs : List Char) : Option Date :=
  match cs with
  | y1 :: y2 :: y3 :: y4 :: '-' :: rest =>
      if y1.isDigit ∧ y2.isDigit ∧ y3.isDigit ∧ y4.isDigit then
        let y := 1000 * digitVal y1 + 100 * digitVal y2 + 10 * digitVal y3 + digitVal y4
        (monthAlts rest).findSome? fun mr =>
          match mr.2 with
          | '-' :: rest2 =>
              (dayAlts rest2).findSome? fun dr =>
                if dr.2 = [] then
                  if 1 ≤ y ∧ dr.1 ≤ daysInMonth y mr.1 then some ⟨y, mr.1, dr.1⟩ else none
                else none
          | _ => none
      else none
  | _ => none

/-- Generic left-to-right, non-overlapping `re.findall` scanner.  `step` gets
the previous character (for `\b`) and the remaining input, and returns the
string that `findall` records together with the rest of the input.  `fuel`
is an upper bound on the number of scanning steps (length of the input
suffices, since every match consumes at least one character). -/
def scanFold (step : Option Char → List Char → Option (String × List Char)) :
    Nat → Option Char → List Char → List String
  | 0, _, _ => []
  | _ + 1, _, [] => []
  | fuel + 1, prev, c :: rest =>
      match step prev (c :: rest) with
      | some (m, after) =>
          m :: scanFold step fuel
            (match m.data.getLast? with | some l => some l | none => some c) after
      | none => scanFold step fuel (some c) rest

/-- Whether the next two characters are `am` or `pm` in any case (the
alternation `(?:AM|PM|am|pm)` under `re.IGNORECASE`); returns the rest. -/
def ampmMarker : List Char → Option (Char × List Char)
  | a :: b :: r =>
      if (a.toLower = 'a' ∨ a.toLower = 'p') ∧ b.toLower = 'm' then some (b, r) else none
  | _ => none

/-- Tail of the first time pattern after `\d{1,2}:\d{2}`, namely
`\s*(?:AM|PM|am|pm)?\b`, backtracking over the amount `s` of whitespace
consumed (greedy, marker before no-marker).  `lastDigit` is the character
preceding the tail.  Returns the number of characters consumed. -/
def time1Tail (rest3 : List Char) : Nat → Option Nat
  | 0 =>
      (match ampmMarker rest3 with
       | some (b, r') => if atBoundary (some b) r' then some 2 else none
       | none => none)
      |>.orElse fun _ =>
        if atBoundary (some '0') rest3 then some 0 else none
  | s + 1 =>
      let r := rest3.drop (s + 1)
      ((match ampmMarker r with
        | some (b, r') => if atBoundary (some b) r' then some (s + 1 + 2) else none
        | none => none)
      |>.orElse fun _ =>
        if atBoundary (some ' ') r then some (s + 1) else none)
      |>.orElse fun _ => time1Tail rest3 s

/-- Matcher for `\b\d{1,2}:\d{2}\s*(?:AM|PM|am|pm)?\b` at the current
position. -/
def tryTime1 (prev : Option Char) (cs : List Char) : Option (String × List Char) :=
  if atBoundary prev cs then
    let drun := cs.takeWhile Char.isDigit
    if 1 ≤ drun.length ∧ drun.length ≤ 2 then
      match cs.drop drun.length with
      | ':' :: rest2 =>
          let mrun := rest2.takeWhile Char.isDigit
          if 2 ≤ mrun.length then
            let rest3 := rest2.drop 2
            let smax := (rest3.takeWhile isSpacePy).length
            match time1Tail rest3 smax with
            | some extra =>
                let total := drun.length + 1 + 2 + extra
                some (String.mk (cs.take total), cs.drop total)
            | none => none
          else none
      | _ => none
    else none
  else none

/-- Tail `\s*(?:AM|PM|am|pm)\b` of the second time pattern (marker
mandatory), backtracking over the whitespace amount. -/
def time2Tail (rest : List Char) : Nat → Option Nat
  | 0 =>
      (match ampmMarker rest with
       | some (b, r') => if atBoundary (some b) r' then some 2 else none
       | none => none)
  | s + 1 =>
      let r := rest.drop (s + 1)
      (match ampmMarker r with
       | some (b, r') => if atBoundary (some b) r' then some (s + 1 + 2) else none
       | none => none)
      |>.orElse fun _ => time2Tail rest s

/-- Matcher for `\b\d{1,2}\s*(?:AM|PM|am|pm)\b`, backtracking over the
number of digits taken (2 first, then 1). -/
def tryTime2 (prev : Option Char) (cs : List Char) : Option (String × List Char) :=
  if atBoundary prev cs then
    let drun := cs.takeWhile Char.isDigit
    let attempt := fun (l : Nat) =>
      if 1 ≤ l ∧ l ≤ drun.length then
        let rest := cs.drop l
        let smax := (rest.takeWhile isSpacePy).length
        match time2Tail rest smax with
        | some extra => some (l + extra)
        | none => none
      else none
    match (attempt 2).orElse (fun _ => attempt 1) with
    | some total => some (String.mk (cs.take total), cs.drop total)
    | none => none
  else none

/-- Matcher for `\b(?:noon|midnight)\b` under `re.IGNORECASE`. -/
def tryTime3 (prev : Option Char) (cs : List Char) : Option (String × List Char) :=
  if atBoundary prev cs then
    let attempt := fun (w : String) =>
      match isPrefixCharsCI w.data cs with
      | some rest =>
          if atBoundary ((cs.take w.length).getLast?) rest then some (w.length) else none
      | none => none
    match (attempt "noon").orElse (fun _ => attempt "midnight") with
    | some total => some (String.mk (cs.take total), cs.drop total)
    | none => none
  else none

def findallTime1 (text : String) : List String :=
  scanFold tryTime1 (text.data.length + 1) none text.data

def findallTime2 (text : String) : List String :=
  scanFold tryTime2 (text.data.length + 1) none text.data

def findallTime3 (text : String) : List String :=
  scanFold tryTime3 (text.data.length + 1) none text.data

/-- Matcher for `\b\d{4}-\d{2}-\d{2}\b`. -/
def tryDate1 (prev : Option Char) (cs : List Char) : Option (String × List Char) :=
  if atBoundary prev cs then
    match cs with
    | a :: b :: c :: d :: '-' :: e :: f :: '-' :: g :: h :: rest =>
        if a.isDigit ∧ b.isDigit ∧ c.isDigit ∧ d.isDigit ∧ e.isDigit ∧ f.isDigit
            ∧ g.isDigit ∧ h.isDigit ∧ atBoundary (some h) rest then
          some (String.mk (cs.take 10), rest)
        else none
    | _ => none
  else none

/-- Matcher for `\b\d{1,2}SEP\d{1,2}SEP\d{4}\b` where `SEP` is `/` or `-`,
with the greedy one-or-two-digit groups backtracking from 2 to 1. -/
def tryDateSep (sep : Char) (prev : Option Char) (cs : List Char) :
    Option (String × List Char) :=
  if atBoundary prev cs then
    let grp := fun (r : List Char) (l : Nat) =>
      if (r.take l).length = l ∧ (r.take l).all Char.isDigit then
        match r.drop l with
        | c :: rest => if c = sep then some rest else none
        | [] => none
      else none
    let year4 := fun (r : List Char) =>
      if (r.take 4).length = 4 ∧ (r.take 4).all Char.isDigit
          ∧ atBoundary ((r.take 4).getLast?) (r.drop 4) then true else false
    let attempt2 := fun (r : List Char) (l2 : Nat) =>
      match grp r l2 with
      | some r2 => if year4 r2 then some (l2 + 1 + 4) else none
      | none => none
    let attempt1 := fun (l1 : Nat) =>
      match grp cs l1 with
      | some r1 =>
          match (attempt2 r1 2).orElse (fun _ => attempt2 r1 1) with
          | some n => some (l1 + 1 + n)
          | none => none
      | none => none
    match (attempt1 2).orElse (fun _ => attempt1 1) with
    | some total => some (String.mk (cs.take total), cs.drop total)
    | none => none
  else none

def findallDate1 (text : String) : List String :=
  scanFold tryDate1 (text.data.length + 1) none text.data

def findallDate2 (text : String) : List String :=
  scanFold (tryDateSep '/') (text.data.length + 1) none text.data

def findallDate3 (text : String) : List String :=
  scanFold (tryDateSep '-') (text.data.length + 1) none text.data

/-- Capture part `\s+([A-Z][a-zA-Z\s]+)` of the name patterns (under
`re.IGNORECASE`, so `[A-Z]` matches any ASCII letter).  Returns the captured
group and the rest of the input after the (greedy) match. -/
def nameCapture (cs : List Char) : Option (List Char × List Char) :=
  let ws := cs.takeWhile isSpacePy
  if ws.isEmpty then none
  else
    match cs.drop ws.length with
    | c :: cs2 =>
        if c.isAlpha then
          let run := cs2.takeWhile (fun d => d.isAlpha || isSpacePy d)
          if run.isEmpty then none
          else some (c :: run, cs2.drop run.length)
        else none
    | [] => none

/-- Tries the alternatives of `(?:p1|p2|...)` in order, each followed by the
capture part; the first alternative whose full match succeeds wins (the
behaviour of the `re` backtracking engine). -/
def tryNameAlts (pats : List String) (cs : List Char) : Option (String × List Char) :=
  match pats with
  | [] => none
  | p :: rest =>
      match isPrefixCharsCI p.data cs with
      | some r =>
          match nameCapture r with
          | some (cap, after) => some (String.mk cap, after)
          | none => tryNameAlts rest cs
      | none => tryNameAlts rest cs

/-- Alternatives of the first name pattern
`(?:my name is|i am|i'm|call me|this is)\s+([A-Z][a-zA-Z\s]+)`. -/
def namePats1 : List String := ["my name is", "i am", "i\x27m", "call me", "this is"]

/-- Alternatives of the second name pattern `(?:from|signed)\s+([A-Z][a-zA-Z\s]+)`. -/
def namePats2 : List String := ["from", "signed"]

/-- Python `re.findall(pattern, text, re.IGNORECASE)` for the two name
patterns: returns the list of captured groups, scanning left to right. -/
def findallName (pats : List String) (text : String) : List String :=
  scanFold (fun _ cs => tryNameAlts pats cs) (text.data.length + 1) none text.data

/-- Character class `[A-Za-z0-9._%+-]` of the local part of the email
pattern. -/
def emailLocalClass (c : Char) : Bool :=
  c.isAlphanum || c = '.' || c = '_' || c = '%' || c = '+' || c = '-'

/-- Character class `[A-Za-z0-9.-]` of the domain part. -/
def emailDomainClass (c : Char) : Bool := c.isAlphanum || c = '.' || c = '-'

/-- Character class `[A-Z|a-z]` of the final part (note: the source pattern
literally includes the pipe character in the class). -/
def emailTldClass (c : Char) : Bool := c.isAlpha || c = '|'

/-- Backtracking over the length of the `{2,}` tail: try `m` characters of
the tld class (greedy), requiring `\b` after; shrink down to 2. -/
def emailTldTry (r3 : List Char) : Nat → Option Nat
  | 0 => none
  | 1 => none
  | m + 2 =>
      (if atBoundary ((r3.take (m + 2)).getLast?) (r3.drop (m + 2)) then some (m + 2)
       else none)
      |>.orElse fun _ => emailTldTry r3 (m + 1)

/-- Backtracking over the length `k` of the greedy `[A-Za-z0-9.-]+` domain
part: after `k` characters there must be a literal dot, then the tld. -/
def emailDomTry (r2 : List Char) : Nat → Option Nat
  | 0 => none
  | k + 1 =>
      (match r2.drop (k + 1) with
       | '.' :: r3 =>
           match emailTldTry r3 ((r3.takeWhile emailTldClass).length) with
           | some m => some (k + 1 + 1 + m)
           | none => none
       | _ => none)
      |>.orElse fun _ => emailDomTry r2 k

/-- Matcher for `\b[A-Za-z0-9._%+-]+@[A-Za-z0-9.-]+\.[A-Z|a-z]{2,}\b` at the
current position. -/
def tryEmail (prev : Option Char) (cs : List Char) : Option (String × List Char) :=
  if atBoundary prev cs then
    let lrun := cs.takeWhile emailLocalClass
    if 1 ≤ lrun.length then
      match cs.drop lrun.length with
      | '@' :: r2 =>
          match emailDomTry r2 ((r2.takeWhile emailDomainClass).length) with
          | some n =>
              let total := lrun.length + 1 + n
              some (String.mk (cs.take total), cs.drop total)
          | none => none
      | _ => none
    else none
  else none

/-- Python `re.findall(email_pattern, text)`. -/
def findallEmail (text : String) : List String :=
  scanFold tryEmail (text.data.length + 1) none text.data

/-- Python `re.match(email_pattern, s)` as a boolean: a match anchored at the
start of the string (not necessarily consuming all of it). -/
def emailMatchStart (s : String) : Bool := (tryEmail none s.data).isSome

/-- Python `re.sub(r"\s*(am|pm)\s*", "", s)`: delete every occurrence of an
`am`/`pm` marker together with surrounding whitespace, scanning left to
right. -/
def subAmPmAux : Nat → List Char → List Char
  | 0, cs => cs
  | _ + 1, [] => []
  | fuel + 1, c :: rest =>
      let cs := c :: rest
      let s := (cs.takeWhile isSpacePy).length
      match cs.drop s with
      | a :: b :: r =>
          if (a = 'a' ∨ a = 'p') ∧ b = 'm' then
            subAmPmAux fuel (r.drop ((r.takeWhile isSpacePy).length))
          else c :: subAmPmAux fuel rest
      | _ => c :: subAmPmAux fuel rest

def subAmPm (s : String) : String := String.mk (subAmPmAux (s.data.length + 1) s.data)

/-- The four booking statuses of `BookingStatus` in the source. -/
inductive BookingStatus where
  | detected
  | incomplete
  | valid
  | invalid
deriving DecidableEq, Repr

/-- The `BookingInfo` dataclass.  `missing_fields` defaults to the empty list
(the effect of `__post_init__`). -/
structure BookingInfo where
  name : Option String := none
  email : Option String := none
  date : Option String := none
  time : Option String := none
  interview_type : Option String := none
  status : BookingStatus := BookingStatus.incomplete
  confidence : Rat := 0
  missing_fields : List String := []
  extracted_text : String := ""
deriving DecidableEq, Repr

/-- Python truthiness of an optional string: `None` and the empty string are
falsy. -/
def truthy (o : Option String) : Bool :=
  match o with
  | none => false
  | some s => !s.isEmpty

/-- Python `x or y` on optional strings. -/
def pyOr (x y : Option String) : Option String := if truthy x then x else y

/-- An entity tagged by the spaCy pipeline: its text span and its label. -/
structure Entity where
  text : String
  label : String
deriving DecidableEq, Repr

/-- The part of a spaCy `Doc` the engine reads: token lemmas and entities. -/
structure Doc where
  lemmas : List String
  ents : List Entity
deriving Repr

/-- External capabilities of the parser: the optional spaCy model (`self.nlp`
is `None` when loading failed), the two ways `dateutil.parser.parse` is
called (with and without `fuzzy=True`), projected to the resulting calendar
date or `none` when parsing raises, and the current date
(`datetime.now().date()`). -/
structure Env where
  nlp : Option (String → Doc)
  parseDateFuzzy : String → Option Date
  parseDate : String → Option Date
  today : Date

/-- The `booking_keywords` list of the constructor. -/
def bookingKeywords : List String :=
  ["book", "schedule", "appointment", "interview", "meeting", "slot",
   "time", "date", "available", "reserve", "set up", "arrange"]

/-- The `interview_types` keyword table of the constructor, in insertion
order. -/
def interviewTypes : List (String × List String) :=
  [("technical", ["technical", "coding", "programming", "development",
                  "engineer", "software", "algorithm"]),
   ("hr", ["hr", "human resources", "behavioral", "culture", "recruiter", "hiring"]),
   ("phone", ["phone", "call", "voice", "telephone", "ring"]),
   ("video", ["video", "zoom", "teams", "meet", "online", "virtual", "skype"]),
   ("onsite", ["onsite", "in-person", "office", "visit", "face-to-face"])]

namespace BookingParser

/-- Method `detect_booking_intent`.  With a model, the source accumulates a
float score: `+1` per token lemma in `booking_keywords` and `+0.5` per
`DATE`/`TIME`/`CARDINAL` entity, and returns
`score >= 1 or (has_temporal and score > 0)`.  The score is a sum of ones
and halves, so the embedding tracks twice its value exactly in `Nat`:
`score >= 1` is `2 <= score2` and `score > 0` is `0 < score2`. -/
def detect_booking_intent (env : Env) (text : String) : Bool :=
  match env.nlp with
  | none => bookingKeywords.any fun kw => pyIn kw (strToLower text)
  | some nlp =>
      let doc := nlp (strToLower text)
      let kwCount := doc.lemmas.countP fun l => bookingKeywords.contains l
      let tCount := doc.ents.countP fun e => ["DATE", "TIME", "CARDINAL"].contains e.label
      let score2 := 2 * kwCount + tCount
      decide (2 ≤ score2) || (decide (1 ≤ tCount) && decide (0 < score2))

/-- Method `extract_person_names`: with no model the method returns `[]` at
once; otherwise `PERSON` entity spans (trimmed, length over 1, at most five
words) are collected, then regex matches of the two name patterns are
appended when new. -/
def extract_person_names (env : Env) (text : String) : List String :=
  match env.nlp with
  | none => []
  | some nlp =>
      let nerNames := (nlp text).ents.foldl
        (fun acc e =>
          if e.label = "PERSON" then
            let name := pyStrip e.text
            if name.length > 1 ∧ (pySplitWs name).length ≤ 5 then acc ++ [name] else acc
          else acc) []
      let step := fun (acc : List String) (m : String) =>
        let name := pyStrip m
        if name.length > 1 ∧ !acc.contains name then acc ++ [name] else acc
      (findallName namePats2 text).foldl step
        ((findallName namePats1 text).foldl step nerNames)

/-- Method `extract_email`: the first regex match, if any. -/
def extract_email (text : String) : Option String := (findallEmail text).head?

/-- Append a candidate value unless absent or already present (the repeated
`if x and x not in xs: xs.append(x)` idiom of the source). -/
def dedupStep (acc : List String) (o : Option String) : List String :=
  match o with
  | some v => if acc.contains v then acc else acc ++ [v]
  | none => acc

/-- One pass of collecting candidate strings: for each element, apply `f` and
accumulate with `dedupStep`. -/
def dedupAppendFold {α : Type} (f : α → Option String) (acc : List String)
    (xs : List α) : List String :=
  xs.foldl (fun a x => dedupStep a (f x)) acc

/-- Method `extract_dates`: `DATE` entities fuzzy-parsed and kept when on or
after yesterday, then the three regex patterns parsed and kept when on or
after today, deduplicating the formatted `YYYY-MM-DD` strings. -/
def extract_dates (env : Env) (text : String) : List String :=
  let nerDates :=
    match env.nlp with
    | none => []
    | some nlp =>
        dedupAppendFold (fun (e : Entity) =>
          if e.label = "DATE" then
            match env.parseDateFuzzy e.text with
            | some d => if Date.le (Date.predDay env.today) d then some (Date.fmt d) else none
            | none => none
          else none) [] (nlp text).ents
  let fromMatch := fun (m : String) =>
    match env.parseDate m with
    | some d => if Date.le env.today d then some (Date.fmt d) else none
    | none => none
  dedupAppendFold fromMatch
    (dedupAppendFold fromMatch
      (dedupAppendFold fromMatch nerDates (findallDate1 text))
      (findallDate2 text))
    (findallDate3 text)

/-- Method `_normalize_time`.  The input is stripped and lowered; `noon` and
`midnight` are substring checks; with an `am`/`pm` marker the marker is
removed, `:00` appended when no colon is present, the rest parsed with
`strptime "%H:%M"` and the hour adjusted (`pm` and hour not 12: `+12`;
else `am` and hour 12: `0`); without a marker the string is parsed as
24-hour, appending `:00` only to strings of at most two characters. -/
def _normalize_time (timeStr : String) : Option String :=
  let s := strToLower (pyStrip timeStr)
  if pyIn "noon" s then some "12:00"
  else if pyIn "midnight" s then some "00:00"
  else if pyIn "pm" s || pyIn "am" s then
    let timeClean := subAmPm s
    let timeClean := if timeClean.data.contains ':' then timeClean else timeClean ++ ":00"
    match strptimeHM timeClean.data with
    | some (h, m) =>
        let h := if pyIn "pm" s ∧ h ≠ 12 then h + 12
                 else if pyIn "am" s ∧ h = 12 then 0
                 else h
        some (pad2 h ++ ":" ++ pad2 m)
    | none => none
  else
    if s.data.contains ':' then
      match strptimeHM s.data with
      | some (h, m) => some (pad2 h ++ ":" ++ pad2 m)
      | none => none
    else if s.length ≤ 2 then
      match strptimeHM (s ++ ":00").data with
      | some (h, m) => some (pad2 h ++ ":" ++ pad2 m)
      | none => none
    else none

/-- Method `extract_times`: `TIME` entities normalized, then the three regex
patterns normalized, deduplicating. -/
def extract_times (env : Env) (text : String) : List String :=
  let nerTimes :=
    match env.nlp with
    | none => []
    | some nlp =>
        dedupAppendFold (fun (e : Entity) =>
          if e.label = "TIME" then _normalize_time e.text else none) [] (nlp text).ents
  dedupAppendFold _normalize_time
    (dedupAppendFold _normalize_time
      (dedupAppendFold _normalize_time nerTimes (findallTime1 text))
      (findallTime2 text))
    (findallTime3 text)

/-- Method `extract_interview_type`: first keyword group matched wins,
`general` when none does.  With a model the keywords are tested for
membership in the lemma list of the lowered text, without one for substring
containment in the lowered text. -/
def extract_interview_type (env : Env) (text : String) : String :=
  match env.nlp with
  | some nlp =>
      let tokens := (nlp (strToLower text)).lemmas
      match interviewTypes.find? (fun p => p.2.any fun kw => tokens.contains kw) with
      | some p => p.1
      | none => "general"
  | none =>
      let textLower := (strToLower text)
      match interviewTypes.find? (fun p => p.2.any fun kw => pyIn kw textLower) with
      | some p => p.1
      | none => "general"

/-- The block computing `missing_fields` from the four required fields,
repeated verbatim in `parse_booking_request`, `_combine_results` and
`_parse_llm_response`. -/
def computeMissing (name email date time : Option String) : List String :=
  (if truthy name then [] else ["name"])
  ++ (if truthy email then [] else ["email"])
  ++ (if truthy date then [] else ["date"])
  ++ (if truthy time then [] else ["time"])

/-- Method `parse_booking_request` (the rule-based resolver).  Without
booking intent the record is returned immediately with status `INCOMPLETE`
and confidence `0.1` (all fields unset, `missing_fields` at its default).
Otherwise the fields are populated, `missing_fields` recomputed, and the
interim `DETECTED`/`0.4` status is overwritten by the final
`VALID 0.9` / `INCOMPLETE 0.7` / `INCOMPLETE 0.5` tiers. -/
def parse_booking_request (env : Env) (text : String) : BookingInfo :=
  if detect_booking_intent env text then
    let name := (extract_person_names env text).head?
    let email := extract_email text
    let date := (extract_dates env text).head?
    let time := (extract_times env text).head?
    let missing := computeMissing name email date time
    { name := name
      email := email
      date := date
      time := time
      interview_type := some (extract_interview_type env text)
      status := if missing.isEmpty then BookingStatus.valid else BookingStatus.incomplete
      confidence := if missing.isEmpty then 0.9 else if missing.length ≤ 2 then 0.7 else 0.5
      missing_fields := missing
      extracted_text := text }
  else
    { status := BookingStatus.incomplete
      confidence := 0.1
      extracted_text := text }

/-- The `extracted_data` dictionary built by `_parse_llm_response`: each line
with a colon is split on the first colon; the key is stripped and lowered,
the value stripped; values `not_found`, `missing` or empty are dropped.
Later assignments to the same key overwrite earlier ones. -/
def llmExtractedData (llmResponse : String) : List (String × String) :=
  (splitNl (pyStrip llmResponse)).foldl
    (fun d line =>
      if pyIn ":" line then
        let key := strToLower (pyStrip (String.mk (line.data.takeWhile (· ≠ ':'))))
        let value := pyStrip (String.mk ((line.data.dropWhile (· ≠ ':')).drop 1))
        if !(["not_found", "missing", ""].contains (strToLower value)) ∧ !value.isEmpty then
          d ++ [(key, value)]
        else d
      else d) []

/-- Python `dict.get`: the last value assigned to the key, if any. -/
def pyGet (d : List (String × String)) (k : String) : Option String :=
  ((d.filter fun p => p.1 == k).getLast?).map fun p => p.2

/-- Method `_parse_llm_response`.  When the reported intent is `booking` or
`scheduling` the missing fields are recomputed and the record is
`VALID 0.85` or `INCOMPLETE 0.65`; any other intent yields
`INCOMPLETE 0.3` with `missing_fields` left at its default. -/
def _parse_llm_response (llmResponse : String) (originalText : String) : BookingInfo :=
  let d := llmExtractedData llmResponse
  let name := pyGet d "name"
  let email := pyGet d "email"
  let date := pyGet d "date"
  let time := pyGet d "time"
  let itype := (pyGet d "type").getD "general"
  let intent := strToLower ((pyGet d "intent").getD "none")
  if intent = "booking" ∨ intent = "scheduling" then
    let missing := computeMissing name email date time
    { name := name
      email := email
      date := date
      time := time
      interview_type := some itype
      status := if missing.isEmpty then BookingStatus.valid else BookingStatus.incomplete
      confidence := if missing.isEmpty then 0.85 else 0.65
      missing_fields := missing
      extracted_text := originalText }
  else
    { name := name
      email := email
      date := date
      time := time
      interview_type := some itype
      status := BookingStatus.incomplete
      confidence := 0.3
      missing_fields := []
      extracted_text := originalText }

/-- Method `_combine_results`: each field prefers the spaCy value, falling
back to the LLM value (`interview_type` additionally to `"general"`);
`missing_fields` is recomputed from the merged values, and the
status/confidence tiers depend on the count of missing fields and on the
number of the four fields the spaCy record populated. -/
def _combine_results (spacyResult llmResult : BookingInfo) : BookingInfo :=
  let name := pyOr spacyResult.name llmResult.name
  let email := pyOr spacyResult.email llmResult.email
  let date := pyOr spacyResult.date llmResult.date
  let time := pyOr spacyResult.time llmResult.time
  let missing := computeMissing name email date time
  let spacyContributions :=
    [spacyResult.name, spacyResult.email, spacyResult.date, spacyResult.time].countP
      fun f => f.isSome
  { name := name
    email := email
    date := date
    time := time
    interview_type := pyOr (pyOr spacyResult.interview_type llmResult.interview_type)
      (some "general")
    status := if missing.isEmpty then BookingStatus.valid else BookingStatus.incomplete
    confidence :=
      if missing.isEmpty then (if 3 ≤ spacyContributions then 0.95 else 0.85)
      else if missing.length ≤ 2 then (if 2 ≤ spacyContributions then 0.75 else 0.65)
      else 0.55
    missing_fields := missing
    extracted_text := spacyResult.extracted_text }

/-- Method `process_booking_with_llm`.  The one fallible step inside the
`try` block is the call to the completion service, modelled by `llmCall`:
`none` means the call raises, in which case the `except` branch returns a
fresh `parse_booking_request` result.  When the rule-based record is already
`VALID` it is returned with its confidence raised to `0.95` and the LLM is
never consulted. -/
def process_booking_with_llm (env : Env) (llmCall : Option String) (text : String) :
    BookingInfo :=
  let spacyResult := parse_booking_request env text
  if spacyResult.status = BookingStatus.valid then
    { spacyResult with confidence := 0.95 }
  else
    match llmCall with
    | none => parse_booking_request env text
    | some llmResponse => _combine_results spacyResult (_parse_llm_response llmResponse text)

/-- The dictionary returned by `validate_booking_info`. -/
structure ValidationResult where
  is_valid : Bool
  errors : List String
  suggestions : List String
deriving DecidableEq, Repr

/-- The `field_prompts` table of `validate_booking_info`. -/
def fieldPrompt : String → Option String
  | "name" => some "Please provide your full name"
  | "email" => some "Please provide your email address"
  | "date" => some "Please specify the date (e.g., 2024-02-15 or \x27tomorrow\x27)"
  | "time" => some "Please specify the time (e.g., 2:30 PM or 14:30)"
  | _ => none

/-- Method `validate_booking_info`: format errors for the populated fields,
suggestions for the missing ones, and
`is_valid = (no errors) and (no missing fields)`. -/
def validate_booking_info (today : Date) (b : BookingInfo) : ValidationResult :=
  let emailErrors :=
    match b.email with
    | some e =>
        if e.isEmpty then []
        else if emailMatchStart e then [] else ["Invalid email format"]
    | none => []
  let dateErrors :=
    match b.date with
    | some ds =>
        if ds.isEmpty then []
        else
          match strptimeYmd ds.data with
          | some d => if Date.lt d today then ["Date cannot be in the past"] else []
          | none => ["Invalid date format (use YYYY-MM-DD)"]
    | none => []
  let timeErrors :=
    match b.time with
    | some ts =>
        if ts.isEmpty then []
        else if (strptimeHM ts.data).isSome then [] else ["Invalid time format (use HH:MM)"]
    | none => []
  let nameErrors :=
    match b.name with
    | some n =>
        if n.isEmpty then []
        else if (pyStrip n).length < 2 then ["Name too short"]
        else if n.length > 100 then ["Name too long"]
        else []
    | none => []
  let errors := emailErrors ++ dateErrors ++ timeErrors ++ nameErrors
  let suggestions :=
    if b.missing_fields.isEmpty then [] else b.missing_fields.filterMap fieldPrompt
  { is_valid := (errors.length == 0) && (b.missing_fields.length == 0)
    errors := errors
    suggestions := suggestions }

end BookingParser

/-! ### Material for the claim statements -/

/-- The four required field names, in the order the source tests them. -/
def requiredFields : List String := ["name", "email", "date", "time"]

/-- Projection of a `BookingInfo` record by required-field name. -/
def fieldVal (b : BookingInfo) : String → Option String
  | "name" => b.name
  | "email" => b.email
  | "date" => b.date
  | "time" => b.time
  | _ => none

/-- The six documented interview types. -/
def interviewTypeValues : List String :=
  ["technical", "hr", "phone", "video", "onsite", "general"]

/-- A concrete analyzer output with no recognised tokens or entities. -/
def emptyDoc : Doc := ⟨[], []⟩

/-- An environment whose analyzer recognises nothing and whose date parser
always fails. -/
def envEmpty : Env :=
  { nlp := some fun _ => emptyDoc
    parseDateFuzzy := fun _ => none
    parseDate := fun _ => none
    today := ⟨2026, 10, 12⟩ }

/-- An environment with no analyzer at all (`self.nlp is None`). -/
def envNoNlp : Env :=
  { nlp := none
    parseDateFuzzy := fun _ => none
    parseDate := fun _ => none
    today := ⟨2026, 10, 12⟩ }

/-- A concrete date parser recognising the one date used by the witness
texts. -/
def parseDateW : String → Option Date :=
  fun s => if s = "2099-01-05" then some ⟨2099, 1, 5⟩ else none

/-- A concrete analyzer: every text lemmatises to `book`; texts mentioning
`john` carry a `PERSON` entity. -/
def envBook : Env :=
  { nlp := some fun s =>
      ⟨["book"], if pyIn "john" (strToLower s) then [⟨"John Smith", "PERSON"⟩] else []⟩
    parseDateFuzzy := fun _ => none
    parseDate := parseDateW
    today := ⟨2026, 10, 12⟩ }

namespace BookingParser

/-! ### C4: range of `_normalize_time` -/

/-- C4 (code bug witness): on the input `13:00 pm` — matched by the first
time regex of `extract_times` — `_normalize_time` returns `25:00`, an hour
outside the 24-hour range its own docstring promises; the result even fails
the `%H:%M` parse that `validate_booking_info` applies to time fields. -/
theorem C4_normalize_time_out_of_range :
    _normalize_time "13:00 pm" = some "25:00" ∧
      strptimeHM "25:00".data = none ∧
      findallTime1 "13:00 pm" = ["13:00 pm"] := by
  refine ⟨by decide, by decide, by decide⟩

/-! ### C8: LLM failure falls back to the rule-based record -/

/-- C8: when the completion call raises (`llmCall = none`) and the rule-based
record was not already `VALID` (so the LLM stage is reached at all), the
pipeline returns exactly the rule-based record and no exception escapes. -/
theorem C8_llm_failure_falls_back (env : Env) (text : String)
    (h : (parse_booking_request env text).status ≠ BookingStatus.valid) :
    process_booking_with_llm env none text = parse_booking_request env text := by
  unfold process_booking_with_llm
  rw [if_neg h]

/-- Witness for C8 at a concrete input: the analyzer recognises nothing in
`hello`, the rule-based record is `INCOMPLETE`, and the failed-LLM pipeline
returns it unchanged. -/
theorem C8_witness :
    process_booking_with_llm envEmpty none "hello" = parse_booking_request envEmpty "hello" :=
  C8_llm_failure_falls_back envEmpty "hello" (by decide)

end BookingParser

namespace BookingParser

/-! ### C9: the validity bit of the validation report -/

theorem lengthZeroPair (e m : List String) :
    ((e.length == 0) && (m.length == 0)) = true ↔ (e = [] ∧ m = []) := by
  cases e <;> cases m <;> simp

/-- C9: the report of `validate_booking_info` has `is_valid = true` exactly
when its error list is empty and the record has no missing fields. -/
theorem C9_is_valid_iff (today : Date) (b : BookingInfo) :
    (validate_booking_info today b).is_valid = true ↔
      ((validate_booking_info today b).errors = [] ∧ b.missing_fields = []) :=
  lengthZeroPair (validate_booking_info today b).errors b.missing_fields

/-! ### C10: the Combiner ignores the status and confidence of its inputs -/

/-- The LLM response used by concrete runs below: all four fields, a type
and a booking intent. -/
def llmFullResponse : String :=
  "name: John Doe\nemail: a@b.co\ndate: 2099-01-05\ntime: 14:00\ntype: technical\nintent: booking"

/-- C10: `_combine_results` is invariant under any change of the status and
confidence of both input records (its output is computed from the merged
field values and the rule-based contribution count alone); and on the text
`hello`, where no booking intent is detected and the rule-based record is
`INCOMPLETE` with confidence `0.1` and every field unset, the LLM stage is
still consulted and the merged record comes back `VALID`. -/
theorem C10_combiner_ignores_status :
    (∀ (s l : BookingInfo) (st st2 : BookingStatus) (c c2 : Rat),
      _combine_results { s with status := st, confidence := c }
          { l with status := st2, confidence := c2 } = _combine_results s l)
    ∧ detect_booking_intent envEmpty "hello" = false
    ∧ (parse_booking_request envEmpty "hello").confidence = 0.1
    ∧ (parse_booking_request envEmpty "hello").name = none
    ∧ (parse_booking_request envEmpty "hello").email = none
    ∧ (parse_booking_request envEmpty "hello").date = none
    ∧ (parse_booking_request envEmpty "hello").time = none
    ∧ process_booking_with_llm envEmpty (some llmFullResponse) "hello"
        = _combine_results (parse_booking_request envEmpty "hello")
            (_parse_llm_response llmFullResponse "hello")
    ∧ (process_booking_with_llm envEmpty (some llmFullResponse) "hello").status
        = BookingStatus.valid := by
  refine ⟨fun s l st st2 c c2 => rfl, by decide, rfl, by decide, by decide, by decide,
    by decide, rfl, by decide⟩

/-! ### C2: the intent decision rule -/

theorem ratHalfScorePos (k t : Nat) :
    ((0 : Rat) < (k : Rat) + (t : Rat) * (1 / 2)) ↔ 0 < 2 * k + t := by
  rw [show ((k : Rat) + (t : Rat) * (1 / 2)) = ((2 * k + t : Nat) : Rat) / 2 by
    push_cast; ring]
  rw [lt_div_iff₀ (by norm_num : (0 : Rat) < 2), zero_mul, Nat.cast_pos]

/-- C2: with an analyzer, `detect_booking_intent` is true exactly when the
keyword-lemma match count is at least 1, or some `DATE`/`TIME`/`CARDINAL`
entity is present and the (temporal-boosted) score is positive; in
particular zero keyword matches and zero temporal entities give `false`. -/
theorem C2_intent_decision_rule (nlp : String → Doc) (pf pd : String → Option Date)
    (tdy : Date) (text : String) :
    (detect_booking_intent ⟨some nlp, pf, pd, tdy⟩ text = true ↔
      (1 ≤ ((nlp (strToLower text)).lemmas.countP fun l => bookingKeywords.contains l)
        ∨ (1 ≤ ((nlp (strToLower text)).ents.countP fun e =>
              ["DATE", "TIME", "CARDINAL"].contains e.label)
          ∧ (0 : Rat) <
              (((nlp (strToLower text)).lemmas.countP fun l =>
                  bookingKeywords.contains l) : Rat)
              + (((nlp (strToLower text)).ents.countP fun e =>
                  ["DATE", "TIME", "CARDINAL"].contains e.label) : Rat) * (1 / 2))))
    ∧ (((nlp (strToLower text)).lemmas.countP fun l => bookingKeywords.contains l) = 0 →
        ((nlp (strToLower text)).ents.countP fun e =>
          ["DATE", "TIME", "CARDINAL"].contains e.label) = 0 →
        detect_booking_intent ⟨some nlp, pf, pd, tdy⟩ text = false) := by
  simp only [detect_booking_intent]
  generalize ((nlp (strToLower text)).lemmas.countP fun l => bookingKeywords.contains l) = k
  generalize ((nlp (strToLower text)).ents.countP fun e =>
    ["DATE", "TIME", "CARDINAL"].contains e.label) = t
  constructor
  · rw [ratHalfScorePos k t]
    simp only [Bool.or_eq_true, Bool.and_eq_true, decide_eq_true_iff]
    omega
  · intro hk ht
    subst hk
    subst ht
    decide

/-- Witness for C2 at a concrete analyzer and text: no lemma matches a
booking keyword and no temporal entity is present, so intent is negative. -/
theorem C2_witness :
    detect_booking_intent ⟨some (fun _ => emptyDoc), (fun _ => none), (fun _ => none),
      ⟨2026, 10, 12⟩⟩ "hello" = false :=
  (C2_intent_decision_rule (fun _ => emptyDoc) (fun _ => none) (fun _ => none)
    ⟨2026, 10, 12⟩ "hello").2 (by decide) (by decide)

end BookingParser

namespace BookingParser

/-! ### C3: a complete rule-based record short-circuits the LLM stage -/

/-- C3: whenever the rule-based pass populates all four required fields, the
pipeline result is independent of the LLM (which is never consulted): it is
the rule-based record itself, `VALID` with empty `missing_fields`, returned
with its confidence raised to `0.95`. -/
theorem C3_rule_based_complete_short_circuit (env : Env) (llmCall : Option String)
    (text : String)
    (hn : truthy (parse_booking_request env text).name = true)
    (he : truthy (parse_booking_request env text).email = true)
    (hd : truthy (parse_booking_request env text).date = true)
    (ht : truthy (parse_booking_request env text).time = true) :
    (parse_booking_request env text).status = BookingStatus.valid
    ∧ (parse_booking_request env text).missing_fields = []
    ∧ (parse_booking_request env text).confidence = 0.9
    ∧ process_booking_with_llm env llmCall text
        = { parse_booking_request env text with confidence := 0.95 }
    ∧ (process_booking_with_llm env llmCall text).confidence = 0.95 := by
  by_cases hdet : detect_booking_intent env text = true
  · simp only [parse_booking_request, hdet, if_true] at hn he hd ht
    have hmiss : computeMissing (extract_person_names env text).head?
        (extract_email text) (extract_dates env text).head?
        (extract_times env text).head? = [] := by
      simp [computeMissing, hn, he, hd, ht]
    have hvalid : (parse_booking_request env text).status = BookingStatus.valid := by
      simp [parse_booking_request, hdet, hmiss]
    refine ⟨hvalid, ?_, ?_, ?_, ?_⟩
    · simp [parse_booking_request, hdet, hmiss]
    · simp [parse_booking_request, hdet, hmiss]
    · simp only [process_booking_with_llm]
      rw [if_pos hvalid]
    · simp only [process_booking_with_llm]
      rw [if_pos hvalid]
  · exfalso
    simp only [parse_booking_request, hdet, if_false] at hn
    exact Bool.false_ne_true hn

/-- Witness for C3: a text in which the rule-based pass finds the name (via
the `PERSON` entity), the email, the date and the time. -/
theorem C3_witness :
    (parse_booking_request envBook "book John 14:00 a@b.co 2099-01-05").status
        = BookingStatus.valid
    ∧ (parse_booking_request envBook "book John 14:00 a@b.co 2099-01-05").missing_fields = []
    ∧ (parse_booking_request envBook "book John 14:00 a@b.co 2099-01-05").confidence = 0.9
    ∧ process_booking_with_llm envBook (some "ignored") "book John 14:00 a@b.co 2099-01-05"
        = { parse_booking_request envBook "book John 14:00 a@b.co 2099-01-05" with
            confidence := 0.95 }
    ∧ (process_booking_with_llm envBook (some "ignored")
        "book John 14:00 a@b.co 2099-01-05").confidence = 0.95 :=
  C3_rule_based_complete_short_circuit envBook (some "ignored")
    "book John 14:00 a@b.co 2099-01-05" (by decide) (by decide) (by decide) (by decide)

/-! ### C5: the range of `interview_type` -/

/-- C5 (amended): `extract_interview_type` always yields one of the six
documented values, and a rule-based record carries exactly that value when
intent was detected, its unset default otherwise. -/
theorem find_fst_mem_interview (p : (String × List String) → Bool) :
    (match interviewTypes.find? p with
     | some q => q.1
     | none => "general") ∈ interviewTypeValues := by
  cases hf : interviewTypes.find? p with
  | none => decide
  | some q =>
      exact (by decide : ∀ r ∈ interviewTypes, r.1 ∈ interviewTypeValues) q
        (List.mem_of_find?_eq_some hf)

theorem C5_interview_type_range (env : Env) (text : String) :
    extract_interview_type env text ∈ interviewTypeValues
    ∧ ((parse_booking_request env text).interview_type = none
        ∨ (parse_booking_request env text).interview_type
            = some (extract_interview_type env text)) := by
  constructor
  · obtain ⟨nlpOpt, pf2, pd2, tdy2⟩ := env
    cases nlpOpt with
    | none => exact find_fst_mem_interview _
    | some nlp => exact find_fst_mem_interview _
  · by_cases hdet : detect_booking_intent env text = true
    · right
      simp [parse_booking_request, hdet]
    · left
      simp [parse_booking_request, hdet]

/-- C5 counterexample: the LLM response parser copies the reported type
verbatim, so a record produced by the engine can carry `banana`, which is
none of the six documented values; the claim as stated is therefore false. -/
theorem C5_counterexample :
    (_parse_llm_response "type: banana\nintent: booking" "x").interview_type
        = some "banana"
    ∧ "banana" ∉ interviewTypeValues
    ∧ (_combine_results (parse_booking_request envEmpty "hello")
        (_parse_llm_response "type: banana\nintent: booking" "x")).interview_type
        = some "banana" := by
  refine ⟨by decide, by decide, by decide⟩

end BookingParser

namespace BookingParser

/-! ### Membership lemmas for the collect-and-deduplicate folds -/

theorem mem_dedupStep {acc : List String} {v : String} (o : Option String)
    (h : v ∈ acc) : v ∈ dedupStep acc o := by
  cases o with
  | none => exact h
  | some w =>
      simp only [dedupStep]
      by_cases hc : acc.contains w
      · rw [if_pos hc]; exact h
      · rw [if_neg hc]; exact List.mem_append_left _ h

theorem mem_dedupStep_self (acc : List String) (v : String) :
    v ∈ dedupStep acc (some v) := by
  simp only [dedupStep]
  by_cases hc : acc.contains v
  · rw [if_pos hc]; exact List.mem_of_elem_eq_true hc
  · rw [if_neg hc]; exact List.mem_append_right _ (List.mem_singleton.mpr rfl)

theorem mem_dedup_mono {α : Type} (f : α → Option String) (v : String) :
    ∀ (xs : List α) (acc : List String), v ∈ acc → v ∈ dedupAppendFold f acc xs := by
  intro xs
  induction xs with
  | nil => intro acc h; simpa [dedupAppendFold] using h
  | cons x xs ih =>
      intro acc h
      show v ∈ dedupAppendFold f (dedupStep acc (f x)) xs
      exact ih _ (mem_dedupStep _ h)

theorem mem_dedup_of {α : Type} (f : α → Option String) (v : String) (x : α) :
    ∀ (xs : List α) (acc : List String), x ∈ xs → f x = some v →
      v ∈ dedupAppendFold f acc xs := by
  intro xs
  induction xs with
  | nil => intro acc h; cases h
  | cons y ys ih =>
      intro acc hmem hf
      rcases List.mem_cons.mp hmem with heq | hmem2
      · subst heq
        show v ∈ dedupAppendFold f (dedupStep acc (f x)) ys
        apply mem_dedup_mono
        rw [hf]
        exact mem_dedupStep_self acc v
      · show v ∈ dedupAppendFold f (dedupStep acc (f y)) ys
        exact ih _ hmem2 hf

/-! ### C1: `missing_fields` versus the unset required fields -/

theorem mem_computeMissing (n e d t : Option String) (f : String) :
    f ∈ computeMissing n e d t ↔
      ((f = "name" ∧ truthy n = false) ∨ (f = "email" ∧ truthy e = false)
        ∨ (f = "date" ∧ truthy d = false) ∨ (f = "time" ∧ truthy t = false)) := by
  unfold computeMissing
  cases hn : truthy n <;> cases he : truthy e <;> cases hd : truthy d <;>
    cases ht : truthy t <;> simp

theorem missing_iff_of_record (r : BookingInfo)
    (hm : r.missing_fields = computeMissing r.name r.email r.date r.time) (f : String) :
    f ∈ r.missing_fields ↔ (f ∈ requiredFields ∧ truthy (fieldVal r f) = false) := by
  rw [hm, mem_computeMissing]
  constructor
  · rintro (⟨rfl, h⟩ | ⟨rfl, h⟩ | ⟨rfl, h⟩ | ⟨rfl, h⟩) <;>
      exact ⟨by decide, by simpa [fieldVal] using h⟩
  · rintro ⟨hf, h⟩
    simp only [requiredFields, List.mem_cons, List.not_mem_nil, or_false] at hf
    rcases hf with rfl | rfl | rfl | rfl
    · exact Or.inl ⟨rfl, by simpa [fieldVal] using h⟩
    · exact Or.inr (Or.inl ⟨rfl, by simpa [fieldVal] using h⟩)
    · exact Or.inr (Or.inr (Or.inl ⟨rfl, by simpa [fieldVal] using h⟩))
    · exact Or.inr (Or.inr (Or.inr ⟨rfl, by simpa [fieldVal] using h⟩))

/-- C1 (amended): for the records whose status is computed from populated
fields — the rule-based record when intent was detected, every combined
record, and the LLM record when the reported intent is booking/scheduling —
`missing_fields` is exactly the subset of the four required fields whose
value is unset (falsy). -/
theorem C1_missing_fields_exact :
    (∀ (env : Env) (text : String), detect_booking_intent env text = true →
      ∀ f, f ∈ (parse_booking_request env text).missing_fields ↔
        (f ∈ requiredFields
          ∧ truthy (fieldVal (parse_booking_request env text) f) = false))
    ∧ (∀ (s l : BookingInfo) (f : String),
        f ∈ (_combine_results s l).missing_fields ↔
          (f ∈ requiredFields ∧ truthy (fieldVal (_combine_results s l) f) = false))
    ∧ (∀ (resp text : String),
        (strToLower ((pyGet (llmExtractedData resp) "intent").getD "none") = "booking"
          ∨ strToLower ((pyGet (llmExtractedData resp) "intent").getD "none") = "scheduling") →
        ∀ f, f ∈ (_parse_llm_response resp text).missing_fields ↔
          (f ∈ requiredFields
            ∧ truthy (fieldVal (_parse_llm_response resp text) f) = false)) := by
  refine ⟨?_, ?_, ?_⟩
  · intro env text hdet f
    exact missing_iff_of_record _ (by simp [parse_booking_request, hdet]) f
  · intro s l f
    exact missing_iff_of_record _ rfl f
  · intro resp text hint f
    apply missing_iff_of_record
    simp only [_parse_llm_response]
    rw [if_pos hint]

/-- C1 counterexample: on a no-intent text the rule-based resolver returns a
record with all four required fields unset whose `missing_fields` is empty,
not the full set the claim demands. -/
theorem C1_counterexample :
    (parse_booking_request envEmpty "hello").name = none
    ∧ (parse_booking_request envEmpty "hello").email = none
    ∧ (parse_booking_request envEmpty "hello").date = none
    ∧ (parse_booking_request envEmpty "hello").time = none
    ∧ (parse_booking_request envEmpty "hello").missing_fields = []
    ∧ (parse_booking_request envEmpty "hello").missing_fields ≠ requiredFields := by
  refine ⟨by decide, by decide, by decide, by decide, by decide, by decide⟩

/-- Witness for C1 at a concrete detected-intent input. -/
theorem C1_witness :
    "date" ∈ (parse_booking_request envBook "book 14:00 a@b.co").missing_fields ↔
      ("date" ∈ requiredFields
        ∧ truthy (fieldVal (parse_booking_request envBook "book 14:00 a@b.co") "date")
            = false) :=
  C1_missing_fields_exact.1 envBook "book 14:00 a@b.co" (by decide) "date"

end BookingParser

namespace BookingParser

/-! ### C6: behaviour with no TextAnalyzer -/

/-- C6 (amended): with the analyzer absent, intent detection degrades to
substring keyword matching, time and date extraction still collect their
regex matches, and interview-type classification still runs its keyword
scan — but person-name extraction returns the empty list at once, never
running its regex patterns. -/
theorem C6_no_analyzer_fallbacks (pf pd : String → Option Date) (tdy : Date)
    (text : String) :
    extract_person_names ⟨none, pf, pd, tdy⟩ text = []
    ∧ detect_booking_intent ⟨none, pf, pd, tdy⟩ text
        = bookingKeywords.any (fun kw => pyIn kw (strToLower text))
    ∧ (∀ m ∈ findallTime1 text ++ findallTime2 text ++ findallTime3 text,
        ∀ v, _normalize_time m = some v → v ∈ extract_times ⟨none, pf, pd, tdy⟩ text)
    ∧ (∀ m ∈ findallDate1 text ++ findallDate2 text ++ findallDate3 text,
        ∀ d, pd m = some d → Date.le tdy d = true →
          Date.fmt d ∈ extract_dates ⟨none, pf, pd, tdy⟩ text)
    ∧ (extract_interview_type ⟨none, pf, pd, tdy⟩ text = "general"
        ∨ ∃ p ∈ interviewTypes, extract_interview_type ⟨none, pf, pd, tdy⟩ text = p.1
            ∧ ∃ kw ∈ p.2, pyIn kw (strToLower text) = true) := by
  refine ⟨rfl, rfl, ?_, ?_, ?_⟩
  · intro m hm v hv
    show v ∈ dedupAppendFold _normalize_time
      (dedupAppendFold _normalize_time
        (dedupAppendFold _normalize_time [] (findallTime1 text))
        (findallTime2 text))
      (findallTime3 text)
    rcases List.mem_append.mp hm with h12 | h3
    · rcases List.mem_append.mp h12 with h1 | h2
      · exact mem_dedup_mono _ _ _ _
          (mem_dedup_mono _ _ _ _ (mem_dedup_of _ _ _ _ _ h1 hv))
      · exact mem_dedup_mono _ _ _ _ (mem_dedup_of _ _ _ _ _ h2 hv)
    · exact mem_dedup_of _ _ _ _ _ h3 hv
  · intro m hm d hd hle
    have hf : (fun (s : String) =>
        match pd s with
        | some dd => if Date.le tdy dd then some (Date.fmt dd) else none
        | none => none) m = some (Date.fmt d) := by
      show (match pd m with
        | some dd => if Date.le tdy dd then some (Date.fmt dd) else none
        | none => none) = some (Date.fmt d)
      rw [hd]
      simp [hle]
    show Date.fmt d ∈ dedupAppendFold _
      (dedupAppendFold _
        (dedupAppendFold _ [] (findallDate1 text))
        (findallDate2 text))
      (findallDate3 text)
    rcases List.mem_append.mp hm with h12 | h3
    · rcases List.mem_append.mp h12 with h1 | h2
      · exact mem_dedup_mono _ _ _ _
          (mem_dedup_mono _ _ _ _ (mem_dedup_of _ _ _ _ _ h1 hf))
      · exact mem_dedup_mono _ _ _ _ (mem_dedup_of _ _ _ _ _ h2 hf)
    · exact mem_dedup_of _ _ _ _ _ h3 hf
  · have hrw : extract_interview_type ⟨none, pf, pd, tdy⟩ text
        = (match interviewTypes.find? (fun p => p.2.any fun kw => pyIn kw (strToLower text))
            with
          | some p => p.1
          | none => "general") := rfl
    rw [hrw]
    cases hf : interviewTypes.find? (fun p => p.2.any fun kw => pyIn kw (strToLower text)) with
    | none => exact Or.inl rfl
    | some q =>
        have hq := List.find?_some hf
        exact Or.inr ⟨q, List.mem_of_find?_eq_some hf, rfl,
          List.any_eq_true.mp (by simpa using hq)⟩

/-- C6 counterexample: on the text `my name is John` the first name pattern
captures `John`, but with the analyzer absent `extract_person_names` returns
the empty list, so the fallback output does not include the regex match. -/
theorem C6_counterexample :
    extract_person_names envNoNlp "my name is John" = []
    ∧ findallName namePats1 "my name is John" = ["John"]
    ∧ pyStrip "John" = "John" := by
  refine ⟨rfl, by decide, by decide⟩

/-- Witness for C6: the time regex match `14:00` survives into the
no-analyzer extraction output. -/
theorem C6_witness :
    "14:00" ∈ extract_times ⟨none, (fun _ => none), (fun _ => none), ⟨2026, 10, 12⟩⟩
        "at 14:00" :=
  (C6_no_analyzer_fallbacks (fun _ => none) (fun _ => none) ⟨2026, 10, 12⟩
    "at 14:00").2.2.1 "14:00" (by decide) "14:00" (by decide)

end BookingParser

namespace BookingParser

/-! ### C7: confidence versus the number of missing fields -/

/-- The `spacy_contributions` count of `_combine_results`: how many of the
four required fields the rule-based record populated (`is not None`). -/
def contribCount (b : BookingInfo) : Nat :=
  [b.name, b.email, b.date, b.time].countP fun f => f.isSome

theorem parse_conf_formula (env : Env) (text : String)
    (hdet : detect_booking_intent env text = true) :
    (parse_booking_request env text).confidence
      = (if (parse_booking_request env text).missing_fields.length = 0 then (0.9 : Rat)
         else if (parse_booking_request env text).missing_fields.length ≤ 2 then 0.7
         else 0.5) := by
  simp only [parse_booking_request, hdet, if_true]
  generalize computeMissing (extract_person_names env text).head? (extract_email text)
      (extract_dates env text).head? (extract_times env text).head? = m
  cases m <;> simp

theorem combine_conf_formula (s l : BookingInfo) :
    (_combine_results s l).confidence
      = (if (_combine_results s l).missing_fields.length = 0 then
            (if 3 ≤ contribCount s then (0.95 : Rat) else 0.85)
         else if (_combine_results s l).missing_fields.length ≤ 2 then
            (if 2 ≤ contribCount s then 0.75 else 0.65)
         else 0.55) := by
  simp only [_combine_results, contribCount]
  generalize computeMissing (pyOr s.name l.name) (pyOr s.email l.email)
      (pyOr s.date l.date) (pyOr s.time l.time) = m
  cases m <;> simp

/-- C7 (amended): for a fixed extraction source the confidence is antitone in
the number of missing fields, and strictly larger across the tiers
(none missing / one or two missing / three or four missing) — for the
rule-based resolver with intent detected, and for the Combiner at a fixed
rule-based contribution count.  Within a tier the confidence is constant,
so the strict form of the claim fails (see the counterexample). -/
theorem C7_confidence_tiers :
    (∀ (env : Env) (t1 t2 : String),
      detect_booking_intent env t1 = true → detect_booking_intent env t2 = true →
      (((parse_booking_request env t1).missing_fields.length
          ≤ (parse_booking_request env t2).missing_fields.length →
        (parse_booking_request env t2).confidence
          ≤ (parse_booking_request env t1).confidence)
      ∧ ((parse_booking_request env t1).missing_fields.length = 0 →
          (parse_booking_request env t2).missing_fields.length ≠ 0 →
          (parse_booking_request env t2).confidence
            < (parse_booking_request env t1).confidence)
      ∧ ((parse_booking_request env t1).missing_fields.length ≤ 2 →
          2 < (parse_booking_request env t2).missing_fields.length →
          (parse_booking_request env t2).confidence
            < (parse_booking_request env t1).confidence)))
    ∧ (∀ (s l s2 l2 : BookingInfo), contribCount s = contribCount s2 →
      (((_combine_results s l).missing_fields.length
          ≤ (_combine_results s2 l2).missing_fields.length →
        (_combine_results s2 l2).confidence ≤ (_combine_results s l).confidence)
      ∧ ((_combine_results s l).missing_fields.length = 0 →
          (_combine_results s2 l2).missing_fields.length ≠ 0 →
          (_combine_results s2 l2).confidence < (_combine_results s l).confidence)
      ∧ ((_combine_results s l).missing_fields.length ≤ 2 →
          2 < (_combine_results s2 l2).missing_fields.length →
          (_combine_results s2 l2).confidence < (_combine_results s l).confidence))) := by
  constructor
  · intro env t1 t2 h1 h2
    rw [parse_conf_formula env t1 h1, parse_conf_formula env t2 h2]
    generalize (parse_booking_request env t1).missing_fields.length = m1
    generalize (parse_booking_request env t2).missing_fields.length = m2
    refine ⟨fun hle => ?_, fun hz hnz => ?_, fun hle2 hgt => ?_⟩ <;>
      split_ifs <;> first | (exfalso; omega) | norm_num
  · intro s l s2 l2 hc
    rw [combine_conf_formula s l, combine_conf_formula s2 l2, ← hc]
    generalize (_combine_results s l).missing_fields.length = m1
    generalize (_combine_results s2 l2).missing_fields.length = m2
    generalize contribCount s = k
    refine ⟨fun hle => ?_, fun hz hnz => ?_, fun hle2 hgt => ?_⟩ <;>
      split_ifs <;> first | (exfalso; omega) | norm_num

/-- C7 counterexample: two rule-based records from the same analyzer, one
with one missing field and one with two, carry the same confidence `0.7`,
so strictly fewer missing fields does not give strictly greater
confidence. -/
theorem C7_counterexample :
    (parse_booking_request envBook "book John 14:00 a@b.co").missing_fields.length = 1
    ∧ (parse_booking_request envBook "book 14:00 a@b.co").missing_fields.length = 2
    ∧ (parse_booking_request envBook "book John 14:00 a@b.co").confidence
        = (parse_booking_request envBook "book 14:00 a@b.co").confidence
    ∧ ¬((parse_booking_request envBook "book 14:00 a@b.co").confidence
        < (parse_booking_request envBook "book John 14:00 a@b.co").confidence) := by
  refine ⟨by decide, by decide, rfl, ?_⟩
  intro hlt
  have h1 : (parse_booking_request envBook "book John 14:00 a@b.co").confidence
      = (0.7 : Rat) := rfl
  have h2 : (parse_booking_request envBook "book 14:00 a@b.co").confidence
      = (0.7 : Rat) := rfl
  rw [h1, h2] at hlt
  exact lt_irrefl _ hlt

/-- Witness for C7 at concrete records with one and two missing fields. -/
theorem C7_witness :
    (parse_booking_request envBook "book 14:00 a@b.co").confidence
      ≤ (parse_booking_request envBook "book John 14:00 a@b.co").confidence :=
  (C7_confidence_tiers.1 envBook "book John 14:00 a@b.co" "book 14:00 a@b.co"
    (by decide) (by decide)).1 (by decide)

end BookingParser
